import Mathlib

/-!
Verification of the retrieval backend of the Financial-Transcripts-RAG
repository against its natural-language specification.

The Python services are shallowly embedded: the ChromaDB vector store is
modelled as a map from collection names to lists of stored chunks (the spec
treats the store as a black-box similarity-search service, so its `query`
primitive is modelled as filter-by-metadata, sort-by-distance, truncate);
the embedding model and the LLM are black-box function parameters; floats
are modelled as rationals; Python exceptions at the API boundary are
modelled with `Except`.  Each definition follows the corresponding Python
function from the repository, with source file noted in its doc comment.
-/

/-- Embedding vectors (numpy arrays in the source) as rational lists. -/
abbrev Emb := List ℚ

/-- Dot product of two vectors, zero-padding the longer one (numpy `dot`
on equal-length vectors; the general case never differs in this model). -/
def dotProduct : Emb → Emb → ℚ
  | a :: as, b :: bs => a * b + dotProduct as bs
  | _, _ => 0

/-- Sum of squares of a vector (the square of `np.linalg.norm`). -/
def sumSq (v : Emb) : ℚ := dotProduct v v

/-- Metadata stored with every chunk: the base metadata built in
`_generate_embeddings_background` (`src/backend/app/api/embeddings.py`)
merged with the per-chunk fields added by `store_document_chunks`
(`src/backend/app/services/chroma_service.py`). -/
structure ChunkMetadata where
  date : String
  filename : String
  quarter : String
  chunk_index : ℕ
  document_id : String
  company : String
  total_chunks : ℕ
deriving DecidableEq, Repr

/-- One stored record of a ChromaDB collection: id, document text,
metadata and embedding. -/
structure StoredChunk where
  id : String
  document : String
  metadata : ChunkMetadata
  embedding : Emb
deriving DecidableEq, Repr

/-- The vector database: each collection name holds a list of stored
chunks in insertion order. -/
abbrev Db := String → List StoredChunk

/-- The metadata `where` clause built by `search_similar_chunks`:
an equality constraint on `company` and optional `$gte`/`$lte` bounds
on `date`. -/
structure WhereClause where
  company : String
  dateGte : Option String := none
  dateLte : Option String := none
deriving DecidableEq, Repr

/-- Whether a stored chunk's metadata satisfies a `where` clause
(`$gte`/`$lte` on dates are lexicographic string comparisons, as in the
underlying store). -/
def matchesWhere (w : WhereClause) (md : ChunkMetadata) : Bool :=
  md.company = w.company
    && (match w.dateGte with | none => true | some s => s ≤ md.date)
    && (match w.dateLte with | none => true | some e => md.date ≤ e)

/-- Black-box model of `collection.query` of the ChromaDB client: keep the
chunks whose metadata matches the `where` clause, order them by ascending
distance to the query embedding, and return at most `nResults` of them,
each paired with its distance. -/
def collectionQuery (dist : Emb → Emb → ℚ) (stored : List StoredChunk)
    (qe : Emb) (nResults : ℕ) (w : WhereClause) : List (StoredChunk × ℚ) :=
  (((stored.filter (fun c => matchesWhere w c.metadata)).map
      (fun c => (c, dist qe c.embedding))).insertionSort
    (fun a b => a.2 ≤ b.2)).take nResults

/-- Black-box model of `collection.get(where={"document_id": d})`: the
stored chunks with that document id, in insertion order. -/
def collectionGet (stored : List StoredChunk) (docId : String) : List StoredChunk :=
  stored.filter (fun c => c.metadata.document_id = docId)

/-- The date-filter dictionary passed to `search_similar_chunks`
(keys `"start"` and `"end"`, either possibly absent). -/
structure DateFilter where
  start : Option String := none
  end_ : Option String := none
deriving DecidableEq, Repr

/-- Python truthiness of an optional string (`None` and `""` are falsy). -/
def truthyStr : Option String → Bool
  | none => false
  | some s => s ≠ ""

/-- Python truthiness of the date-filter dict (`if date_filter:`). -/
def truthyDateFilter : Option DateFilter → Bool
  | none => false
  | some f => f.start.isSome || f.end_.isSome

/-- The `where_clause` construction of `search_similar_chunks`
(`chroma_service.py` lines 127-137): company equality always; a date
bound for each truthy key of the date filter. -/
def mkWhere (company : String) (df : Option DateFilter) : WhereClause :=
  if truthyDateFilter df then
    match df with
    | none => { company := company }
    | some f =>
      { company := company
        dateGte := if truthyStr f.start then f.start else none
        dateLte := if truthyStr f.end_ then f.end_ else none }
  else { company := company }

/-- The ten keys of `ChromaService.company_names`, in insertion order. -/
def companyNamesKeys : List String :=
  ["AAPL", "AMD", "AMZN", "ASML", "CSCO", "GOOGL", "INTC", "MSFT", "MU", "NVDA"]

/-- `ChromaService.get_collection_name`:
`f"transcripts_{company.lower()}"`, with Python `str.lower()` as the
per-character lowercase map. -/
def get_collection_name (company : String) : String :=
  "transcripts_" ++ String.mk (company.data.map Char.toLower)

/-- Python `company_filter or list(self.company_names.keys())`: `None` and
the empty list are falsy and fall back to the default. -/
def pyOrList (o : Option (List String)) (d : List String) : List String :=
  match o with
  | none => d
  | some l => if l = [] then d else l

/-- One element of the result list of `search_similar_chunks`. -/
structure SearchResult where
  company : String
  document_id : String
  chunk_index : ℕ
  date : String
  quarter : String
  content : String
  similarity_score : ℚ
  metadata : ChunkMetadata
deriving DecidableEq, Repr

/-- The per-company body of the search loop of
`ChromaService.search_similar_chunks` (`chroma_service.py` lines 117-172):
skip empty collections, query with the company/date `where` clause asking
for `min(max_results * 2, 50)` candidates, convert each distance to a
similarity score `1 - distance`, and keep the scores at or above the
threshold. -/
def searchCompany (dist : Emb → Emb → ℚ) (db : Db) (qe : Emb)
    (max_results : ℕ) (similarity_threshold : ℚ) (date_filter : Option DateFilter)
    (company : String) : List SearchResult :=
  let stored := db (get_collection_name company)
  if stored.length = 0 then []
  else
    let w := mkWhere company date_filter
    let qres := collectionQuery dist stored qe (min (max_results * 2) 50) w
    qres.filterMap (fun cd =>
      let similarity_score := 1 - cd.2
      if similarity_threshold ≤ similarity_score then
        some { company := company
               document_id := cd.1.metadata.document_id
               chunk_index := cd.1.metadata.chunk_index
               date := cd.1.metadata.date
               quarter := cd.1.metadata.quarter
               content := cd.1.document
               similarity_score := similarity_score
               metadata := cd.1.metadata }
      else none)

/-- `ChromaService.search_similar_chunks` (`chroma_service.py` lines
101-180): embed the query, fan out over the filtered companies (all ten
when the filter is falsy), gather the per-company survivors, sort by
non-increasing similarity score (Python `sort(key=..., reverse=True)`) and
return the first `max_results`.  The query embedder `enc` and the store's
distance function `dist` are black-box parameters. -/
def search_similar_chunks (enc : String → Emb) (dist : Emb → Emb → ℚ) (db : Db)
    (query : String) (company_filter : Option (List String))
    (max_results : ℕ) (similarity_threshold : ℚ)
    (date_filter : Option DateFilter) : List SearchResult :=
  let query_embedding := enc query
  let companies_to_search := pyOrList company_filter companyNamesKeys
  let all_results := companies_to_search.flatMap
    (searchCompany dist db query_embedding max_results similarity_threshold date_filter)
  (all_results.insertionSort
    (fun a b => b.similarity_score ≤ a.similarity_score)).take max_results

/-- Application settings (`src/backend/app/core/config.py`), restricted to
the fields the retrieval pipeline reads, with their declared defaults. -/
structure Settings where
  EMBEDDING_MODEL : String := "all-MiniLM-L6-v2"
  MAX_CHUNKS_PER_QUERY : ℕ := 5
  SIMILARITY_THRESHOLD : ℚ := 7/10
  TEMPERATURE : ℚ := 7/10
deriving DecidableEq, Repr

/-- The global settings instance (environment overrides absent). -/
def settings : Settings := {}

/-- Python `x or d` for an optional float: `None` and `0.0` are falsy. -/
def pyOrQ (o : Option ℚ) (d : ℚ) : ℚ :=
  match o with
  | none => d
  | some v => if v = 0 then d else v

/-- The `date_range` field of a query request
(`src/backend/app/models/query.py`). -/
structure DateRangeReq where
  start : Option String := none
  end_ : Option String := none
deriving DecidableEq, Repr

/-- `QueryRequest` (`src/backend/app/models/query.py`), with company
symbols as strings. -/
structure QueryRequest where
  question : String
  company_filter : Option (List String) := none
  date_range : Option DateRangeReq := none
  max_results : ℕ := 5
  similarity_threshold : Option ℚ := none
  temperature : Option ℚ := none
deriving DecidableEq, Repr

/-- `[c.value for c in request.company_filter] if request.company_filter
else None` (an empty filter list is falsy and becomes `None`). -/
def extractCompanyFilter (cf : Option (List String)) : Option (List String) :=
  match cf with
  | none => none
  | some l => if l = [] then none else some l

/-- The date-filter dict built in `RAGPipeline.process_query`
(`rag_pipeline.py` lines 40-46): a key is added only for a truthy bound. -/
def buildDateFilter (dr : Option DateRangeReq) : Option DateFilter :=
  match dr with
  | none => none
  | some r =>
    some { start := if truthyStr r.start then r.start else none
           end_ := if truthyStr r.end_ then r.end_ else none }

/-- Python banker's rounding (`round` rounds halves to the nearest even
integer). -/
def pyRound (x : ℚ) : ℤ :=
  let f := ⌊x⌋
  let r := x - f
  if r < 1/2 then f
  else if 1/2 < r then f + 1
  else if 2 ∣ f then f else f + 1

/-- Python `round(x, 3)`. -/
def pyRound3 (x : ℚ) : ℚ := pyRound (x * 1000) / 1000

/-- `SourceDocument` (`src/backend/app/models/response.py`). -/
structure SourceDocument where
  company : String
  date : String
  quarter : Option String
  chunk : String
  similarity_score : ℚ
  document_id : String
  chunk_index : Option ℕ
deriving DecidableEq, Repr

/-- `QueryMetadata` (`src/backend/app/models/response.py`).  Wall-clock
processing time is outside the model and carried as an opaque string. -/
structure QueryMetadata where
  processing_time : String
  total_chunks_searched : ℕ
  model_used : String
  llm_model : String
  similarity_threshold : ℚ
  max_results : ℕ
deriving DecidableEq, Repr

/-- `QueryResponse` (`src/backend/app/models/response.py`). -/
structure QueryResponse where
  query : String
  answer : String
  sources : List SourceDocument
  metadata : QueryMetadata
deriving DecidableEq, Repr

/-- The fixed apology answer of `RAGPipeline.process_query`
(`rag_pipeline.py` line 69). -/
def apologyMessage : String :=
  "I apologize, but I couldn't generate a response to your question. Please try rephrasing your question or check if the system is properly configured."

/-- `RAGPipeline._format_sources` (`rag_pipeline.py` lines 121-145): each
raw chunk becomes a `SourceDocument` with its similarity score rounded to
3 decimal places.  Quarter extraction from the date string is the pure
helper `_extract_quarter`, abstracted as a parameter. -/
def _format_sources (extractQuarter : String → Option String)
    (chunks : List SearchResult) : List SourceDocument :=
  chunks.map (fun chunk =>
    { company := chunk.company
      date := chunk.date
      quarter := extractQuarter chunk.date
      chunk := chunk.content
      similarity_score := pyRound3 chunk.similarity_score
      document_id := chunk.document_id
      chunk_index := some chunk.chunk_index })

/-- The answer selection of `RAGPipeline.process_query` (`rag_pipeline.py`
lines 68-69): Python `if not generated_answer:` replaces both `None` and
an empty string by the fixed apology message. -/
def answerOf (generated_answer : Option String) : String :=
  match generated_answer with
  | none => apologyMessage
  | some s => if s = "" then apologyMessage else s

/-- `RAGPipeline.process_query`, normal path (`rag_pipeline.py` lines
25-96).  The retrieval service and the LLM (`generate_response`, returning
`None` on failure or empty output) are black-box parameters; the
chunk-count estimate is a pure statistics lookup abstracted as
`estimateChunks`. -/
def process_query
    (search : String → Option (List String) → ℕ → ℚ → Option DateFilter → List SearchResult)
    (llm : String → List SearchResult → ℚ → Option String)
    (extractQuarter : String → Option String)
    (estimateChunks : Option (List String) → ℕ)
    (req : QueryRequest) : QueryResponse :=
  let question := req.question
  let company_filter := extractCompanyFilter req.company_filter
  let max_results := req.max_results
  let similarity_threshold := pyOrQ req.similarity_threshold settings.SIMILARITY_THRESHOLD
  let temperature := pyOrQ req.temperature settings.TEMPERATURE
  let date_filter := buildDateFilter req.date_range
  let similar_chunks := search question company_filter max_results similarity_threshold date_filter
  let generated_answer := llm question similar_chunks temperature
  let answer := answerOf generated_answer
  let sources := _format_sources extractQuarter similar_chunks
  { query := question
    answer := answer
    sources := sources
    metadata := { processing_time := ""
                  total_chunks_searched := estimateChunks company_filter
                  model_used := settings.EMBEDDING_MODEL
                  llm_model := "gemini-pro"
                  similarity_threshold := similarity_threshold
                  max_results := max_results } }

/-- The `except` branch of `RAGPipeline.process_query` (`rag_pipeline.py`
lines 98-119): a normal `QueryResponse` whose answer carries the error
text and whose sources are empty. -/
def pipelineErrorResponse (req : QueryRequest) (e : String) : QueryResponse :=
  { query := req.question
    answer := "An error occurred while processing your query: " ++ e
    sources := []
    metadata := { processing_time := ""
                  total_chunks_searched := 0
                  model_used := settings.EMBEDDING_MODEL
                  llm_model := "gemini-pro"
                  similarity_threshold := pyOrQ req.similarity_threshold settings.SIMILARITY_THRESHOLD
                  max_results := req.max_results } }

/-- `RAGPipeline.process_query` including its catch-all handler: an
unexpected exception inside the pipeline (`exc = some e`) is caught and
turned into an error-bearing success response. -/
def process_query_caught
    (search : String → Option (List String) → ℕ → ℚ → Option DateFilter → List SearchResult)
    (llm : String → List SearchResult → ℚ → Option String)
    (extractQuarter : String → Option String)
    (estimateChunks : Option (List String) → ℕ)
    (req : QueryRequest) (exc : Option String) : QueryResponse :=
  match exc with
  | some e => pipelineErrorResponse req e
  | none => process_query search llm extractQuarter estimateChunks req

/-- A FastAPI `HTTPException` as the endpoints raise it. -/
structure HttpError where
  status_code : ℕ
  detail : String
deriving DecidableEq, Repr

/-- The 503 detail shared by the query and search endpoints. -/
def unavailableDetail : String :=
  "Embedding services are currently unavailable. Please check that sentence-transformers is properly installed and configured."

/-- The `/query` endpoint `process_rag_query` (`src/backend/app/api/query.py`
lines 16-58): 503 when the embedding service is unavailable, 400 on a blank
question, 500 when the pipeline call raises, otherwise the pipeline's
response.  `pipeline` models `rag_pipeline.process_query`, with `.error`
standing for an uncaught exception. -/
def process_rag_query (available : Bool) (req : QueryRequest)
    (pipeline : QueryRequest → Except String QueryResponse) :
    Except HttpError QueryResponse :=
  if !available then
    .error { status_code := 503, detail := unavailableDetail }
  else if req.question.trim = "" then
    .error { status_code := 400, detail := "Question cannot be empty" }
  else
    match pipeline req with
    | .ok r => .ok r
    | .error e =>
      .error { status_code := 500
               detail := "Internal server error while processing query: " ++ e }

/-- `SearchRequest` (`src/backend/app/models/query.py`). -/
structure SearchRequest where
  query : String
  company_filter : Option (List String) := none
  max_results : ℕ := 10
  similarity_threshold : Option ℚ := none
deriving DecidableEq, Repr

/-- One formatted result of the `/search` endpoint
(`SearchResult` of `src/backend/app/models/response.py`). -/
structure ApiSearchResult where
  document_id : String
  company : String
  date : String
  content : String
  similarity_score : ℚ
  metadata : ChunkMetadata
deriving DecidableEq, Repr

/-- `SearchResponse` (`src/backend/app/models/response.py`). -/
structure SearchResponse where
  query : String
  results : List ApiSearchResult
  total_results : ℕ
  processing_time : String
deriving DecidableEq, Repr

/-- The `/search` endpoint `vector_similarity_search` (`query.py` lines
61-136): 503 when unavailable, 400 on a blank query, 500 when the search
call raises, otherwise the formatted results with scores rounded to 3
decimal places.  `searchRun` models the `search_similar_chunks` call, with
`.error` standing for an uncaught exception. -/
def vector_similarity_search (available : Bool) (req : SearchRequest)
    (searchRun : Except String (List SearchResult)) :
    Except HttpError SearchResponse :=
  if !available then
    .error { status_code := 503, detail := unavailableDetail }
  else if req.query.trim = "" then
    .error { status_code := 400, detail := "Query cannot be empty" }
  else
    match searchRun with
    | .error e =>
      .error { status_code := 500
               detail := "Internal server error during search: " ++ e }
    | .ok chunks =>
      let results := chunks.map (fun chunk =>
        ({ document_id := chunk.document_id
           company := chunk.company
           date := chunk.date
           content := chunk.content
           similarity_score := pyRound3 chunk.similarity_score
           metadata := chunk.metadata } : ApiSearchResult))
      .ok { query := req.query
            results := results
            total_results := results.length
            processing_time := "" }

/-- The module-level `embedding_status` dict of
`src/backend/app/api/embeddings.py` (lines 16-24). -/
structure EmbeddingStatusDict where
  status : String
  progress : ℚ
  total_documents : ℕ
  processed_documents : ℕ
  current_company : Option String
  estimated_time_remaining : Option String
  error : Option String
deriving DecidableEq, Repr

/-- The initial value of `embedding_status`. -/
def initialEmbeddingStatus : EmbeddingStatusDict :=
  { status := "idle", progress := 0, total_documents := 0
    processed_documents := 0, current_company := none
    estimated_time_remaining := none, error := none }

/-- The reset performed by `create_embeddings` on acceptance
(`embeddings.py` lines 85-94). -/
def resetEmbeddingStatus : EmbeddingStatusDict :=
  { status := "starting", progress := 0, total_documents := 0
    processed_documents := 0, current_company := none
    estimated_time_remaining := none, error := none }

/-- `EmbeddingRequest` (`src/backend/app/models/query.py`). -/
structure EmbeddingRequest where
  force_recreate : Bool := false
  companies : Option (List String) := none
  batch_size : ℕ := 32
deriving DecidableEq, Repr

/-- The JSON reply of a successful `POST /embeddings/create`. -/
structure CreateEmbeddingsReply where
  message : String
  status : String
  force_recreate : Bool
  companies : Option (List String)
  batch_size : ℕ
deriving DecidableEq, Repr

/-- The `/embeddings/create` endpoint (`embeddings.py` lines 58-122) as a
transition on the shared status dict: the reply (409 when a run is marked
`processing`), the status dict after the request, and the number of
background generation tasks the request schedules. -/
def create_embeddings (st : EmbeddingStatusDict) (req : EmbeddingRequest) :
    Except HttpError CreateEmbeddingsReply × EmbeddingStatusDict × ℕ :=
  if st.status = "processing" then
    (.error { status_code := 409
              detail := "Embedding generation is already in progress" }, st, 0)
  else
    (.ok { message := "Embedding generation started"
           status := "starting"
           force_recreate := req.force_recreate
           companies := req.companies
           batch_size := req.batch_size },
     resetEmbeddingStatus, 1)

/-- The content of one pickled cache file written by
`save_embedding_to_cache` (`src/backend/app/services/embedding_service.py`
lines 120-134). -/
structure CacheEntry where
  text : String
  embedding : Emb
  model : String
deriving DecidableEq, Repr

/-- The flat cache directory as a map from file path to pickle content. -/
abbrev CacheFs := String → Option CacheEntry

/-- A cache directory with no files. -/
def emptyCacheFs : CacheFs := fun _ => none

/-- `EmbeddingService._get_cache_key`: the MD5 hex digest of the text.
The digest function itself is a black-box parameter. -/
def _get_cache_key (md5hex : String → String) (text : String) : String :=
  md5hex text

/-- `EmbeddingService._get_cache_path`: `cache_dir / f"{cache_key}.pkl"`. -/
def _get_cache_path (cache_dir : String) (cache_key : String) : String :=
  cache_dir ++ "/" ++ cache_key ++ ".pkl"

/-- `EmbeddingService.save_embedding_to_cache` (`embedding_service.py`
lines 120-134): write the pickle `{text, embedding, model}` at the
content-hash path. -/
def save_embedding_to_cache (md5hex : String → String)
    (cache_dir model_name : String) (fs : CacheFs)
    (text : String) (embedding : Emb) : CacheFs :=
  let cache_path := _get_cache_path cache_dir (_get_cache_key md5hex text)
  fun p => if p = cache_path then some { text := text, embedding := embedding, model := model_name } else fs p

/-- `EmbeddingService.load_embedding_from_cache` (`embedding_service.py`
lines 136-156): `None` when the file is missing or was written under
another model name. -/
def load_embedding_from_cache (md5hex : String → String)
    (cache_dir model_name : String) (fs : CacheFs) (text : String) : Option Emb :=
  let cache_path := _get_cache_path cache_dir (_get_cache_key md5hex text)
  match fs cache_path with
  | none => none
  | some data => if data.model ≠ model_name then none else some data.embedding

/-- `EmbeddingService.encode_texts` (`embedding_service.py` lines 65-88):
the sentence-transformer model is a black-box text-to-vector function
applied to each text. -/
def encode_texts (encodeOne : String → Emb) (texts : List String) : List Emb :=
  texts.map encodeOne

/-- The cache-probing loop of `encode_with_cache` (`embedding_service.py`
lines 167-175), carried out from position `i`: the per-position cache
results (`None` as placeholder for a miss), the texts to encode, and their
absolute positions. -/
def cacheScan (md5hex : String → String) (cache_dir model_name : String)
    (fs : CacheFs) : List String → ℕ → List (Option Emb) × List String × List ℕ
  | [], _ => ([], [], [])
  | text :: rest, i =>
    let r := cacheScan md5hex cache_dir model_name fs rest (i + 1)
    match load_embedding_from_cache md5hex cache_dir model_name fs text with
    | some cached_embedding => (some cached_embedding :: r.1, r.2.1, r.2.2)
    | none => (none :: r.1, text :: r.2.1, i :: r.2.2)

/-- The write-back loop of `encode_with_cache` (`embedding_service.py`
lines 183-185): `embeddings[indices_to_encode[i]] = embedding`. -/
def fillBack : List (Option Emb) → List ℕ → List Emb → List (Option Emb)
  | embs, i :: is, e :: es => fillBack (embs.set i (some e)) is es
  | embs, _, _ => embs

/-- `EmbeddingService.encode_with_cache` (`embedding_service.py` lines
158-187), returning in addition the list of texts the encoder was invoked
on and the cache state after the call. -/
def encode_with_cache (encodeOne : String → Emb) (md5hex : String → String)
    (cache_dir model_name : String) (fs : CacheFs)
    (texts : List String) (use_cache : Bool) : List Emb × List String × CacheFs :=
  if !use_cache then (encode_texts encodeOne texts, texts, fs)
  else
    let scan := cacheScan md5hex cache_dir model_name fs texts 0
    let texts_to_encode := scan.2.1
    let indices_to_encode := scan.2.2
    let new_embeddings := encode_texts encodeOne texts_to_encode
    let fs' := (texts_to_encode.zip new_embeddings).foldl
      (fun f te => save_embedding_to_cache md5hex cache_dir model_name f te.1 te.2) fs
    let filled := fillBack scan.1 indices_to_encode new_embeddings
    (filled.map (fun o => o.getD []), texts_to_encode, fs')

/-- The caller-supplied metadata dict that
`_generate_embeddings_background` passes to `store_document_chunks`. -/
structure BaseMetadata where
  date : String
  company : String
  filename : String
  quarter : String
deriving DecidableEq, Repr

/-- Replace one collection's contents in the database. -/
def updateDb (db : Db) (name : String) (l : List StoredChunk) : Db :=
  fun n => if n = name then l else db n

/-- `ChromaService.store_document_chunks` (`chroma_service.py` lines
49-99): embed the chunks, build per-chunk ids
`f"{document_id}_chunk_{i}"` and metadata (the caller's metadata plus
`chunk_index`, `document_id`, `company`, `total_chunks`), and add them to
the company's collection. -/
def store_document_chunks (encodeOne : String → Emb) (db : Db)
    (company document_id : String) (chunks : List String)
    (metadata : BaseMetadata) : Db × Bool :=
  let collection_name := get_collection_name company
  let stored := db collection_name
  let embeddings := encode_texts encodeOne chunks
  let items := (chunks.zip embeddings).enum.map (fun ie =>
    ({ id := document_id ++ "_chunk_" ++ toString ie.1
       document := ie.2.1
       metadata := { date := metadata.date
                     filename := metadata.filename
                     quarter := metadata.quarter
                     chunk_index := ie.1
                     document_id := document_id
                     company := company
                     total_chunks := chunks.length }
       embedding := ie.2.2 } : StoredChunk))
  (updateDb db collection_name (stored ++ items), true)

/-- One entry of the `chunks` list returned by `get_document_by_id`. -/
structure DocChunk where
  content : String
  chunk_index : ℕ
deriving DecidableEq, Repr

/-- The dict returned by `get_document_by_id`.  The source drops the
`chunk_index` key from the shared metadata; the model keeps the whole
record of the first chunk. -/
structure DocumentResult where
  document_id : String
  company : String
  chunks : List DocChunk
  metadata : Option ChunkMetadata
deriving DecidableEq, Repr

/-- `ChromaService.get_document_by_id` (`chroma_service.py` lines
267-306): fetch the chunks whose metadata carries the document id, `None`
when there are none, otherwise the chunks sorted by ascending
`chunk_index`. -/
def get_document_by_id (db : Db) (document_id company : String) :
    Option DocumentResult :=
  let stored := db (get_collection_name company)
  let results := collectionGet stored document_id
  if results = [] then none
  else
    let chunks := results.map (fun c =>
      ({ content := c.document, chunk_index := c.metadata.chunk_index } : DocChunk))
    let sorted := chunks.insertionSort (fun a b => a.chunk_index ≤ b.chunk_index)
    some { document_id := document_id
           company := company
           chunks := sorted
           metadata := results.head?.map (·.metadata) }

/-- Python strings as character lists, for the chunker (`len`, `strip`
and slicing are character-precise there). -/
abbrev Str := List Char

/-- Python `str.strip()`: drop whitespace from both ends. -/
def pyStrip (s : Str) : Str :=
  (s.dropWhile Char.isWhitespace).rdropWhile Char.isWhitespace

/-- The characters of the sentence-splitting class `[.!?]`. -/
def isSentencePunct (c : Char) : Bool :=
  c = '.' || c = '!' || c = '?'

/-- `re.split(r'[.!?]+', text)`: the fields between maximal runs of
sentence punctuation (empty fields at the ends of the text or around a
leading run included, runs collapsed). -/
def splitSentences : Str → List Str
  | [] => [[]]
  | c :: cs =>
    if isSentencePunct c then
      match cs with
      | [] => [[], []]
      | c2 :: _ => if isSentencePunct c2 then splitSentences cs else [] :: splitSentences cs
    else
      match splitSentences cs with
      | [] => [[c]]
      | f :: fs => (c :: f) :: fs

/-- The sentence-packing loop of `_split_into_chunks`
(`src/backend/app/api/embeddings.py` lines 357-367), carrying the chunk
list and the current chunk. -/
def chunkLoop (max_chunk_size : ℕ) :
    List Str → List Str → Str → List Str × Str
  | [], chunks, current_chunk => (chunks, current_chunk)
  | sentence :: rest, chunks, current_chunk =>
    let s := pyStrip sentence
    if s = [] then chunkLoop max_chunk_size rest chunks current_chunk
    else if current_chunk.length + s.length > max_chunk_size ∧ current_chunk ≠ [] then
      chunkLoop max_chunk_size rest (chunks ++ [pyStrip current_chunk]) s
    else if current_chunk = [] then
      chunkLoop max_chunk_size rest chunks s
    else
      chunkLoop max_chunk_size rest chunks (current_chunk ++ ' ' :: s)

/-- `_split_into_chunks` (`embeddings.py` lines 347-373): split into
sentences, pack greedily, append the stripped last chunk when non-empty. -/
def _split_into_chunks (text : Str) (max_chunk_size : ℕ := 512) : List Str :=
  let sentences := splitSentences text
  let r := chunkLoop max_chunk_size sentences [] []
  if pyStrip r.2 ≠ [] then r.1 ++ [pyStrip r.2] else r.1

/-! ## Theorems -/

/-- C9: the similarity threshold used for retrieval is the request's value
unless it is `None` or `0.0`, in which case the configured default 0.7 is
used, and likewise for the generation temperature (Python `or` treats an
explicit 0.0 as falsy). -/
theorem process_query_effective_threshold_temperature :
    ∀ (search : String → Option (List String) → ℕ → ℚ → Option DateFilter → List SearchResult)
      (llm : String → List SearchResult → ℚ → Option String)
      (extractQuarter : String → Option String)
      (estimateChunks : Option (List String) → ℕ)
      (req : QueryRequest),
    (process_query search llm extractQuarter estimateChunks req).sources
        = _format_sources extractQuarter
            (search req.question (extractCompanyFilter req.company_filter) req.max_results
              (pyOrQ req.similarity_threshold settings.SIMILARITY_THRESHOLD)
              (buildDateFilter req.date_range)) ∧
    (process_query search llm extractQuarter estimateChunks req).answer
        = answerOf (llm req.question
            (search req.question (extractCompanyFilter req.company_filter) req.max_results
              (pyOrQ req.similarity_threshold settings.SIMILARITY_THRESHOLD)
              (buildDateFilter req.date_range))
            (pyOrQ req.temperature settings.TEMPERATURE)) ∧
    pyOrQ req.similarity_threshold settings.SIMILARITY_THRESHOLD
        = (if req.similarity_threshold = none ∨ req.similarity_threshold = some 0
           then settings.SIMILARITY_THRESHOLD else req.similarity_threshold.getD 0) ∧
    pyOrQ req.temperature settings.TEMPERATURE
        = (if req.temperature = none ∨ req.temperature = some 0
           then settings.TEMPERATURE else req.temperature.getD 0) ∧
    settings.SIMILARITY_THRESHOLD = 7/10 ∧ settings.TEMPERATURE = 7/10 := by
  intro search llm extractQuarter estimateChunks req
  refine ⟨rfl, rfl, ?_, ?_, rfl, rfl⟩
  · cases h : req.similarity_threshold with
    | none => simp [pyOrQ, h]
    | some v =>
      by_cases hv : v = 0
      · simp [pyOrQ, h, hv]
      · simp [pyOrQ, h, hv]
  · cases h : req.temperature with
    | none => simp [pyOrQ, h]
    | some v =>
      by_cases hv : v = 0
      · simp [pyOrQ, h, hv]
      · simp [pyOrQ, h, hv]

/-- C4: a `POST /embeddings/create` request is rejected (with status 409,
the only error this endpoint produces) exactly when the shared status dict
reads `processing`; on rejection the dict is untouched and no task is
scheduled, otherwise the dict is reset and exactly one background task is
scheduled. -/
theorem create_embeddings_single_task :
    ∀ (st : EmbeddingStatusDict) (req : EmbeddingRequest),
    ((create_embeddings st req).1
        = .error { status_code := 409, detail := "Embedding generation is already in progress" }
      ↔ st.status = "processing") ∧
    (∀ err, (create_embeddings st req).1 = .error err → err.status_code = 409) ∧
    (create_embeddings st req).2.1 = (if st.status = "processing" then st else resetEmbeddingStatus) ∧
    (create_embeddings st req).2.2 = (if st.status = "processing" then 0 else 1) ∧
    (st.status = "processing" ∨ ∃ reply, (create_embeddings st req).1 = .ok reply) ∧
    (create_embeddings st req).2.2 ≤ 1 := by
  intro st req
  by_cases h : st.status = "processing" <;>
    simp [create_embeddings, h]

/-- C3 counterexample: with the embedding service unavailable, the `/query`
endpoint reports HTTP 503, not 500, so not every error is reported as 500. -/
theorem api_not_uniform_500_cex :
    process_rag_query false { question := "What did Apple say about supply chains?" }
        (fun _ => .error "boom")
      = .error { status_code := 503, detail := unavailableDetail } ∧ (503 : ℕ) ≠ 500 :=
  ⟨rfl, by decide⟩

/-- C3 (amended): unexpected exceptions in the query and search handlers
are caught and reported as HTTP 500 (proved for each endpoint), but the
error reporting is not uniform: an unavailable embedding service gives
503 and a blank question or query gives 400 on both endpoints, a
concurrent embedding run gives 409 (the only error status of that
endpoint), and an error inside the RAG pipeline is caught there and
returned as an HTTP 200 success response whose answer carries the error
text and whose sources are empty. -/
theorem api_error_status_taxonomy :
    ∀ (available : Bool) (req : QueryRequest)
      (pipeline : QueryRequest → Except String QueryResponse)
      (sreq : SearchRequest) (searchRun : Except String (List SearchResult))
      (st : EmbeddingStatusDict) (ereq : EmbeddingRequest)
      (search : String → Option (List String) → ℕ → ℚ → Option DateFilter → List SearchResult)
      (llm : String → List SearchResult → ℚ → Option String)
      (extractQuarter : String → Option String)
      (estimateChunks : Option (List String) → ℕ)
      (e : String),
    (∀ err, process_rag_query available req pipeline = .error err →
        err.status_code = 400 ∨ err.status_code = 500 ∨ err.status_code = 503) ∧
    (available = false → process_rag_query available req pipeline
        = .error { status_code := 503, detail := unavailableDetail }) ∧
    (available = true → req.question.trim ≠ "" → pipeline req = .error e →
        process_rag_query available req pipeline
          = .error { status_code := 500
                     detail := "Internal server error while processing query: " ++ e }) ∧
    (available = true → req.question.trim = "" →
        process_rag_query available req pipeline
          = .error { status_code := 400, detail := "Question cannot be empty" }) ∧
    (∀ err, vector_similarity_search available sreq searchRun = .error err →
        err.status_code = 400 ∨ err.status_code = 500 ∨ err.status_code = 503) ∧
    (available = false → vector_similarity_search available sreq searchRun
        = .error { status_code := 503, detail := unavailableDetail }) ∧
    (available = true → sreq.query.trim = "" →
        vector_similarity_search available sreq searchRun
          = .error { status_code := 400, detail := "Query cannot be empty" }) ∧
    (available = true → sreq.query.trim ≠ "" → searchRun = .error e →
        vector_similarity_search available sreq searchRun
          = .error { status_code := 500
                     detail := "Internal server error during search: " ++ e }) ∧
    (∀ err, (create_embeddings st ereq).1 = .error err → err.status_code = 409) ∧
    (process_query_caught search llm extractQuarter estimateChunks req (some e)).answer
        = "An error occurred while processing your query: " ++ e ∧
    (process_query_caught search llm extractQuarter estimateChunks req (some e)).sources
        = [] := by
  intro available req pipeline sreq searchRun st ereq search llm extractQuarter estimateChunks e
  refine ⟨?_, ?_, ?_, ?_, ?_, ?_, ?_, ?_, ?_, rfl, rfl⟩
  · intro err h
    unfold process_rag_query at h
    split_ifs at h with h1 h2
    · simp only [Except.error.injEq] at h
      subst h
      exact Or.inr (Or.inr rfl)
    · simp only [Except.error.injEq] at h
      subst h
      exact Or.inl rfl
    · revert h
      cases hp : pipeline req with
      | ok r => intro h; cases h
      | error msg =>
        intro h
        simp only [Except.error.injEq] at h
        subst h
        exact Or.inr (Or.inl rfl)
  · intro ha
    subst ha
    rfl
  · intro ha hq hp
    subst ha
    unfold process_rag_query
    rw [if_neg (by simp), if_neg (by simpa using hq), hp]
  · intro ha hq
    subst ha
    unfold process_rag_query
    rw [if_neg (by simp), if_pos hq]
  · intro err h
    unfold vector_similarity_search at h
    split_ifs at h with h1 h2
    · simp only [Except.error.injEq] at h
      subst h
      exact Or.inr (Or.inr rfl)
    · simp only [Except.error.injEq] at h
      subst h
      exact Or.inl rfl
    · revert h
      cases hs : searchRun with
      | ok chunks => intro h; cases h
      | error msg =>
        intro h
        simp only [Except.error.injEq] at h
        subst h
        exact Or.inr (Or.inl rfl)
  · intro ha
    subst ha
    rfl
  · intro ha hq
    subst ha
    unfold vector_similarity_search
    rw [if_neg (by simp), if_pos hq]
  · intro ha hq hs
    subst ha
    unfold vector_similarity_search
    rw [if_neg (by simp), if_neg (by simpa using hq), hs]
  · intro err h
    by_cases hs : st.status = "processing" <;> simp [create_embeddings, hs] at h
    rw [← h]

/-- The cache file path determines the MD5 digest used to build it. -/
lemma cache_path_injective (md5hex : String → String) (cache_dir : String)
    {t1 t2 : String}
    (h : _get_cache_path cache_dir (_get_cache_key md5hex t1)
        = _get_cache_path cache_dir (_get_cache_key md5hex t2)) :
    md5hex t1 = md5hex t2 := by
  unfold _get_cache_path _get_cache_key at h
  have hd := congrArg String.data h
  simp only [String.data_append, List.append_assoc] at hd
  have h1 := List.append_cancel_left (List.append_cancel_left hd)
  have h2 := List.append_cancel_right h1
  exact String.ext h2

/-- Saving entries whose cache paths all differ from `p` leaves the file
at `p` absent. -/
lemma foldl_save_preserves_none (md5hex : String → String)
    (cache_dir model_name : String) :
    ∀ (ts : List (String × Emb)) (fs : CacheFs) (p : String),
      fs p = none →
      (∀ q ∈ ts, _get_cache_path cache_dir (_get_cache_key md5hex q.1) ≠ p) →
      (ts.foldl (fun f te => save_embedding_to_cache md5hex cache_dir model_name f te.1 te.2) fs) p
        = none := by
  intro ts
  induction ts with
  | nil => intro fs p hfs _; simpa using hfs
  | cons q rest ih =>
    intro fs p hfs hne
    simp only [List.foldl_cons]
    refine ih _ p ?_ (fun q' hq' => hne q' (List.mem_cons_of_mem _ hq'))
    unfold save_embedding_to_cache
    rw [if_neg]
    · exact hfs
    · intro hp
      exact hne q (List.mem_cons_self _ _) (hp ▸ rfl)

/-- C7: an embedding saved for a text is loaded back verbatim while the
model name is unchanged; a text whose digest was never saved loads as
`None`; after a model-name change every load returns `None`; and the cache
file path is a function of the MD5 digest and the cache directory alone. -/
theorem embedding_cache_roundtrip :
    ∀ (md5hex : String → String) (cache_dir model_name model2 : String)
      (fs : CacheFs) (text : String) (e : Emb) (ts : List (String × Emb)),
    load_embedding_from_cache md5hex cache_dir model_name
        (save_embedding_to_cache md5hex cache_dir model_name fs text e) text = some e ∧
    ((∀ q ∈ ts, md5hex q.1 ≠ md5hex text) →
      load_embedding_from_cache md5hex cache_dir model_name
        (ts.foldl (fun f te => save_embedding_to_cache md5hex cache_dir model_name f te.1 te.2)
          emptyCacheFs) text = none) ∧
    (model2 ≠ model_name →
      load_embedding_from_cache md5hex cache_dir model2
        (save_embedding_to_cache md5hex cache_dir model_name fs text e) text = none) ∧
    (∀ t1 t2, md5hex t1 = md5hex t2 →
      _get_cache_path cache_dir (_get_cache_key md5hex t1)
        = _get_cache_path cache_dir (_get_cache_key md5hex t2)) := by
  intro md5hex cache_dir model_name model2 fs text e ts
  refine ⟨?_, ?_, ?_, ?_⟩
  · simp [load_embedding_from_cache, save_embedding_to_cache]
  · intro hdiff
    have hnone : (ts.foldl
        (fun f te => save_embedding_to_cache md5hex cache_dir model_name f te.1 te.2)
        emptyCacheFs) (_get_cache_path cache_dir (_get_cache_key md5hex text)) = none := by
      refine foldl_save_preserves_none md5hex cache_dir model_name ts emptyCacheFs _ rfl ?_
      intro q hq hpath
      exact hdiff q hq (cache_path_injective md5hex cache_dir hpath)
    simp [load_embedding_from_cache, hnone]
  · intro hm
    simp [load_embedding_from_cache, save_embedding_to_cache, Ne.symm hm]
  · intro t1 t2 h
    unfold _get_cache_path _get_cache_key
    rw [h]

/-- C6: the response's sources are exactly the retrieved chunks, in
retrieval order, with similarity scores rounded to 3 decimal places; the
LLM is invoked on precisely the retrieved chunk list; and a missing LLM
answer yields the fixed apology message. -/
theorem process_query_sources_mirror_retrieval :
    ∀ (search : String → Option (List String) → ℕ → ℚ → Option DateFilter → List SearchResult)
      (llm : String → List SearchResult → ℚ → Option String)
      (extractQuarter : String → Option String)
      (estimateChunks : Option (List String) → ℕ)
      (req : QueryRequest),
    (process_query search llm extractQuarter estimateChunks req).sources
        = _format_sources extractQuarter
            (search req.question (extractCompanyFilter req.company_filter) req.max_results
              (pyOrQ req.similarity_threshold settings.SIMILARITY_THRESHOLD)
              (buildDateFilter req.date_range)) ∧
    (process_query search llm extractQuarter estimateChunks req).answer
        = answerOf (llm req.question
            (search req.question (extractCompanyFilter req.company_filter) req.max_results
              (pyOrQ req.similarity_threshold settings.SIMILARITY_THRESHOLD)
              (buildDateFilter req.date_range))
            (pyOrQ req.temperature settings.TEMPERATURE)) ∧
    (∀ i : ℕ,
      ((process_query search llm extractQuarter estimateChunks req).sources)[i]?
        = ((search req.question (extractCompanyFilter req.company_filter) req.max_results
              (pyOrQ req.similarity_threshold settings.SIMILARITY_THRESHOLD)
              (buildDateFilter req.date_range))[i]?).map (fun c =>
            { company := c.company
              date := c.date
              quarter := extractQuarter c.date
              chunk := c.content
              similarity_score := pyRound3 c.similarity_score
              document_id := c.document_id
              chunk_index := some c.chunk_index })) ∧
    ((process_query search llm extractQuarter estimateChunks req).sources).length
        = (search req.question (extractCompanyFilter req.company_filter) req.max_results
            (pyOrQ req.similarity_threshold settings.SIMILARITY_THRESHOLD)
            (buildDateFilter req.date_range)).length ∧
    (llm req.question
        (search req.question (extractCompanyFilter req.company_filter) req.max_results
          (pyOrQ req.similarity_threshold settings.SIMILARITY_THRESHOLD)
          (buildDateFilter req.date_range))
        (pyOrQ req.temperature settings.TEMPERATURE) = none →
      (process_query search llm extractQuarter estimateChunks req).answer
        = apologyMessage) := by
  intro search llm extractQuarter estimateChunks req
  refine ⟨rfl, rfl, ?_, ?_, ?_⟩
  · intro i
    simp [process_query, _format_sources, List.getElem?_map]
  · simp [process_query, _format_sources]
  · intro h
    simp [process_query, h, answerOf]

/-- Positions of `enumFrom` are non-decreasing. -/
lemma pairwise_fst_le_enumFrom {α : Type} (l : List α) :
    ∀ n : ℕ, (List.enumFrom n l).Pairwise (fun a b => a.1 ≤ b.1) := by
  induction l with
  | nil => intro n; simp
  | cons x xs ih =>
    intro n
    rw [List.enumFrom_cons]
    refine List.Pairwise.cons ?_ (ih (n + 1))
    intro y hy
    obtain ⟨i, a⟩ := y
    have := (List.mk_mem_enumFrom_iff_le_and_getElem?_sub.mp hy).1
    simp only
    omega

/-- Enumerating a list zipped with its own image just enumerates the list
and pairs each element with its image. -/
lemma enumFrom_zip_map {α β : Type} (f : α → β) :
    ∀ (l : List α) (n : ℕ),
      List.enumFrom n (l.zip (l.map f))
        = (List.enumFrom n l).map (fun p => (p.1, (p.2, f p.2))) := by
  intro l
  induction l with
  | nil => intro n; rfl
  | cons x xs ih =>
    intro n
    simp only [List.map_cons, List.zip_cons_cons, List.enumFrom_cons, ih]

/-- The stored item `store_document_chunks` builds for the position-chunk
pair `p`. -/
def storedItemOf (encodeOne : String → Emb) (company document_id : String)
    (chunks : List String) (metadata : BaseMetadata) (p : ℕ × String) : StoredChunk :=
  { id := document_id ++ "_chunk_" ++ toString p.1
    document := p.2
    metadata := { date := metadata.date
                  filename := metadata.filename
                  quarter := metadata.quarter
                  chunk_index := p.1
                  document_id := document_id
                  company := company
                  total_chunks := chunks.length }
    embedding := encodeOne p.2 }

/-- The collection contents after `store_document_chunks`: the previous
contents followed by one item per chunk, with id `document_id_chunk_i` and
`chunk_index i`. -/
lemma store_document_chunks_items (encodeOne : String → Emb) (db : Db)
    (company document_id : String) (chunks : List String) (metadata : BaseMetadata) :
    (store_document_chunks encodeOne db company document_id chunks metadata).1
        (get_collection_name company)
      = db (get_collection_name company)
        ++ chunks.enum.map (storedItemOf encodeOne company document_id chunks metadata) := by
  simp only [store_document_chunks, updateDb, encode_texts, if_pos rfl, if_true]
  congr 1
  show (List.enumFrom 0 (chunks.zip (chunks.map encodeOne))).map _
      = (List.enumFrom 0 chunks).map _
  rw [enumFrom_zip_map, List.map_map]
  rfl

/-- C10: chunks stored for a document id absent from the collection are
returned by `get_document_by_id` with their original content, sorted in
ascending `chunk_index` order (chunk `i` stored under id
`document_id ++ "_chunk_" ++ i` with `chunk_index i`), while a document id
with no stored chunks yields `None`. -/
theorem store_then_get_roundtrip
    (encodeOne : String → Emb) (db : Db) (company document_id : String)
    (chunks : List String) (metadata : BaseMetadata)
    (h1 : chunks ≠ [])
    (h2 : ∀ c ∈ db (get_collection_name company), c.metadata.document_id ≠ document_id) :
    (store_document_chunks encodeOne db company document_id chunks metadata).2 = true ∧
    ((get_document_by_id
        (store_document_chunks encodeOne db company document_id chunks metadata).1
        document_id company).map DocumentResult.chunks)
      = some (chunks.enum.map (fun p =>
          ({ content := p.2, chunk_index := p.1 } : DocChunk))) ∧
    (∀ i, ∀ hi : i < chunks.length,
      ∃ item ∈ (store_document_chunks encodeOne db company document_id chunks metadata).1
          (get_collection_name company),
        item.id = document_id ++ "_chunk_" ++ toString i ∧
        item.metadata.chunk_index = i ∧
        item.document = chunks.get ⟨i, hi⟩) ∧
    (∀ db₀ : Db,
      (∀ c ∈ db₀ (get_collection_name company), c.metadata.document_id ≠ document_id) →
      get_document_by_id db₀ document_id company = none) := by
  have hitems := store_document_chunks_items encodeOne db company document_id chunks metadata
  have hfilter : collectionGet
      ((store_document_chunks encodeOne db company document_id chunks metadata).1
        (get_collection_name company)) document_id
      = chunks.enum.map (storedItemOf encodeOne company document_id chunks metadata) := by
    rw [hitems]
    unfold collectionGet
    rw [List.filter_append]
    have hA : (db (get_collection_name company)).filter
        (fun c => decide (c.metadata.document_id = document_id)) = [] := by
      rw [List.filter_eq_nil_iff]
      intro c hc
      simpa using h2 c hc
    have hB : (chunks.enum.map
          (storedItemOf encodeOne company document_id chunks metadata)).filter
        (fun c => decide (c.metadata.document_id = document_id))
        = chunks.enum.map (storedItemOf encodeOne company document_id chunks metadata) := by
      rw [List.filter_eq_self]
      intro c hc
      obtain ⟨p, hp, rfl⟩ := List.mem_map.mp hc
      simp [storedItemOf]
    rw [hA, hB, List.nil_append]
  have hne : chunks.enum.map (storedItemOf encodeOne company document_id chunks metadata) ≠ [] := by
    intro h
    have hlen := congrArg List.length h
    simp [List.enum_length] at hlen
    exact h1 hlen
  refine ⟨rfl, ?_, ?_, ?_⟩
  · simp only [get_document_by_id]
    rw [hfilter, if_neg hne]
    simp only [Option.map_some']
    rw [List.map_map]
    have hsorted : List.Sorted (fun a b : DocChunk => a.chunk_index ≤ b.chunk_index)
        (chunks.enum.map ((fun c : StoredChunk =>
            ({ content := c.document, chunk_index := c.metadata.chunk_index } : DocChunk))
          ∘ storedItemOf encodeOne company document_id chunks metadata)) := by
      refine List.Pairwise.map _ ?_ (pairwise_fst_le_enumFrom chunks 0)
      intro a b hab
      simpa [storedItemOf] using hab
    rw [List.Sorted.insertionSort_eq hsorted]
    rfl
  · intro i hi
    refine ⟨storedItemOf encodeOne company document_id chunks metadata (i, chunks.get ⟨i, hi⟩),
      ?_, rfl, rfl, rfl⟩
    rw [hitems]
    refine List.mem_append_right _ (List.mem_map_of_mem _ ?_)
    rw [List.mk_mem_enum_iff_getElem?]
    simp [List.getElem?_eq_getElem hi]
  · intro db₀ h
    simp only [get_document_by_id]
    have hzero : collectionGet (db₀ (get_collection_name company)) document_id = [] := by
      unfold collectionGet
      rw [List.filter_eq_nil_iff]
      intro c hc
      simpa using h c hc
    rw [hzero]
    simp

/-- A vector database with every collection empty. -/
def exEmptyDb : Db := fun _ => []

/-- A sample base metadata record. -/
def exBaseMetadata : BaseMetadata :=
  { date := "2020-04-30", company := "AAPL", filename := "2020-Apr-30.txt"
    quarter := "Q2 2020" }

/-- Witness for C10 at a concrete store of two chunks. -/
theorem store_then_get_roundtrip_witness :
    (store_document_chunks (fun _ => []) exEmptyDb "AAPL" "d1" ["alpha", "beta"]
        exBaseMetadata).2 = true ∧
    ((get_document_by_id
        (store_document_chunks (fun _ => []) exEmptyDb "AAPL" "d1" ["alpha", "beta"]
          exBaseMetadata).1
        "d1" "AAPL").map DocumentResult.chunks)
      = some ((["alpha", "beta"] : List String).enum.map (fun p =>
          ({ content := p.2, chunk_index := p.1 } : DocChunk))) ∧
    (∀ i, ∀ hi : i < (["alpha", "beta"] : List String).length,
      ∃ item ∈ (store_document_chunks (fun _ => []) exEmptyDb "AAPL" "d1" ["alpha", "beta"]
          exBaseMetadata).1 (get_collection_name "AAPL"),
        item.id = "d1" ++ "_chunk_" ++ toString i ∧
        item.metadata.chunk_index = i ∧
        item.document = (["alpha", "beta"] : List String).get ⟨i, hi⟩) ∧
    (∀ db₀ : Db,
      (∀ c ∈ db₀ (get_collection_name "AAPL"), c.metadata.document_id ≠ "d1") →
      get_document_by_id db₀ "d1" "AAPL" = none) :=
  store_then_get_roundtrip (fun _ => []) exEmptyDb "AAPL" "d1" ["alpha", "beta"]
    exBaseMetadata (by simp) (fun c hc => by simp [exEmptyDb] at hc)

/-- Every result `searchCompany` produces for a company carries that
company, clears the threshold, matches the metadata `where` clause, and
corresponds to a chunk stored in that company's collection with score
`1 - distance`. -/
lemma searchCompany_mem {dist : Emb → Emb → ℚ} {db : Db} {qe : Emb}
    {max_results : ℕ} {thr : ℚ} {df : Option DateFilter} {company : String}
    {r : SearchResult}
    (h : r ∈ searchCompany dist db qe max_results thr df company) :
    r.company = company ∧ thr ≤ r.similarity_score ∧
    matchesWhere (mkWhere company df) r.metadata = true ∧
    ∃ sc ∈ db (get_collection_name company),
      r.content = sc.document ∧ r.metadata = sc.metadata ∧
      r.similarity_score = 1 - dist qe sc.embedding := by
  simp only [searchCompany] at h
  split at h
  · exact absurd h (List.not_mem_nil r)
  · obtain ⟨cd, hcd, hr⟩ := List.mem_filterMap.mp h
    by_cases hth : thr ≤ 1 - cd.2
    · rw [if_pos hth] at hr
      have hcd2 : cd ∈ (((db (get_collection_name company)).filter
          (fun c => matchesWhere (mkWhere company df) c.metadata)).map
          (fun c => (c, dist qe c.embedding))) := by
        have h1 := List.mem_of_mem_take hcd
        exact (List.perm_insertionSort _ _).mem_iff.mp h1
      obtain ⟨sc, hsc, hcdeq⟩ := List.mem_map.mp hcd2
      obtain ⟨hscmem, hscmatch⟩ := List.mem_filter.mp hsc
      injection hr with hr
      subst hr
      subst hcdeq
      exact ⟨rfl, hth, hscmatch, sc, hscmem, rfl, rfl, rfl⟩
    · rw [if_neg hth] at hr
      cases hr

/-- C1 (amended): results are drawn only from the per-company collections
of the searched companies — all ten known companies when the filter is
absent or empty (Python truthiness), the filtered companies otherwise —
each result matches the company/date `where` clause and clears the
similarity threshold, the result list is sorted by non-increasing
similarity score, and at most `max_results` results are returned. -/
theorem search_similar_chunks_spec :
    ∀ (enc : String → Emb) (dist : Emb → Emb → ℚ) (db : Db) (query : String)
      (company_filter : Option (List String)) (max_results : ℕ)
      (similarity_threshold : ℚ) (date_filter : Option DateFilter),
    (search_similar_chunks enc dist db query company_filter max_results
        similarity_threshold date_filter).length ≤ max_results ∧
    List.Sorted (fun a b : SearchResult => b.similarity_score ≤ a.similarity_score)
      (search_similar_chunks enc dist db query company_filter max_results
        similarity_threshold date_filter) ∧
    ∀ r ∈ search_similar_chunks enc dist db query company_filter max_results
        similarity_threshold date_filter,
      r.company ∈ pyOrList company_filter companyNamesKeys ∧
      similarity_threshold ≤ r.similarity_score ∧
      matchesWhere (mkWhere r.company date_filter) r.metadata = true ∧
      ∃ sc ∈ db (get_collection_name r.company),
        r.content = sc.document ∧ r.metadata = sc.metadata ∧
        r.similarity_score = 1 - dist (enc query) sc.embedding := by
  intro enc dist db query cf maxR thr df
  haveI htot : IsTotal SearchResult (fun a b => b.similarity_score ≤ a.similarity_score) :=
    ⟨fun a b => le_total _ _⟩
  haveI htrans : IsTrans SearchResult (fun a b => b.similarity_score ≤ a.similarity_score) :=
    ⟨fun _ _ _ h1 h2 => le_trans h2 h1⟩
  refine ⟨?_, ?_, ?_⟩
  · exact List.length_take_le _ _
  · simp only [search_similar_chunks]
    exact List.Pairwise.sublist (List.take_sublist _ _) (List.sorted_insertionSort _ _)
  · intro r hr
    simp only [search_similar_chunks] at hr
    have hr2 := List.mem_of_mem_take hr
    have hr3 := (List.perm_insertionSort _ _).mem_iff.mp hr2
    obtain ⟨company, hcomp, hx⟩ := List.mem_flatMap.mp hr3
    obtain ⟨hco, hth, hmk, sc, hscmem, h1, h2, h3⟩ := searchCompany_mem hx
    refine ⟨?_, hth, ?_, ?_⟩
    · rw [hco]; exact hcomp
    · rw [hco]; exact hmk
    · rw [hco]; exact ⟨sc, hscmem, h1, h2, h3⟩

/-- A query embedder returning the unit vector `[1]`. -/
def exEnc : String → Emb := fun _ => [1]

/-- The cosine distance of the vector store as the spec states it. -/
def exDist : Emb → Emb → ℚ := fun a b => 1 - dotProduct a b

/-- Metadata of the sample stored chunk. -/
def exChunkMetadata : ChunkMetadata :=
  { date := "2020-04-30", filename := "2020-Apr-30.txt", quarter := "Q2 2020"
    chunk_index := 0, document_id := "aapl_doc", company := "AAPL"
    total_chunks := 1 }

/-- A sample stored chunk with unit embedding `[1]`. -/
def exStoredChunk : StoredChunk :=
  { id := "aapl_doc_chunk_0", document := "Apple revenue grew."
    metadata := exChunkMetadata, embedding := [1] }

/-- A database holding one chunk in the AAPL collection. -/
def exDb : Db := fun name => if name = "transcripts_aapl" then [exStoredChunk] else []

/-- A company whose collection is empty contributes no search results. -/
lemma searchCompany_empty {dist : Emb → Emb → ℚ} {db : Db} {qe : Emb}
    {maxR : ℕ} {thr : ℚ} {df : Option DateFilter} {company : String}
    (h : db (get_collection_name company) = []) :
    searchCompany dist db qe maxR thr df company = [] := by
  simp [searchCompany, h]

/-- C1 counterexample: with the explicitly given empty company filter
(`some []`), the search still returns a chunk of the AAPL collection,
although AAPL is not among the (zero) filtered companies. -/
theorem search_empty_filter_cex :
    (search_similar_chunks exEnc exDist exDb "revenue" (some []) 5 0 none).map
        SearchResult.company = ["AAPL"] ∧
    "AAPL" ∉ ([] : List String) := by
  refine ⟨?_, by simp⟩
  have hdb : exDb (get_collection_name "AAPL") = [exStoredChunk] := by decide
  have hdist : exDist [1] [1] = 0 := by simp [exDist, dotProduct]
  have hA : searchCompany exDist exDb [1] 5 0 none "AAPL"
      = [{ company := "AAPL", document_id := "aapl_doc", chunk_index := 0,
           date := "2020-04-30", quarter := "Q2 2020", content := "Apple revenue grew."
           similarity_score := 1, metadata := exChunkMetadata }] := by
    simp [searchCompany, hdb, collectionQuery, mkWhere, truthyDateFilter,
          show matchesWhere (mkWhere "AAPL" none) exChunkMetadata = true from by decide,
          exStoredChunk, exChunkMetadata, List.filter, List.insertionSort,
          List.orderedInsert, hdist]
  have h2 : searchCompany exDist exDb [1] 5 0 none "AMD" = [] := searchCompany_empty (by decide)
  have h3 : searchCompany exDist exDb [1] 5 0 none "AMZN" = [] := searchCompany_empty (by decide)
  have h4 : searchCompany exDist exDb [1] 5 0 none "ASML" = [] := searchCompany_empty (by decide)
  have h5 : searchCompany exDist exDb [1] 5 0 none "CSCO" = [] := searchCompany_empty (by decide)
  have h6 : searchCompany exDist exDb [1] 5 0 none "GOOGL" = [] := searchCompany_empty (by decide)
  have h7 : searchCompany exDist exDb [1] 5 0 none "INTC" = [] := searchCompany_empty (by decide)
  have h8 : searchCompany exDist exDb [1] 5 0 none "MSFT" = [] := searchCompany_empty (by decide)
  have h9 : searchCompany exDist exDb [1] 5 0 none "MU" = [] := searchCompany_empty (by decide)
  have h10 : searchCompany exDist exDb [1] 5 0 none "NVDA" = [] := searchCompany_empty (by decide)
  simp [search_similar_chunks, pyOrList, companyNamesKeys, exEnc,
        hA, h2, h3, h4, h5, h6, h7, h8, h9, h10,
        List.insertionSort, List.orderedInsert]

/-- C2: every returned chunk's similarity score equals the cosine
similarity — the dot product over the product of Euclidean norms, written
with the real square root of `sumSq` as in `compute_similarity` — of the
query embedding and that chunk's stored embedding, under the spec's
reading of the black-box store: distances are cosine distances
`1 - dot` of the unit-normalized embeddings the encoder produces
(`normalize_embeddings=True`). -/
theorem similarity_score_is_cosine
    (enc : String → Emb) (dist : Emb → Emb → ℚ) (db : Db) (query : String)
    (company_filter : Option (List String)) (max_results : ℕ)
    (similarity_threshold : ℚ) (date_filter : Option DateFilter)
    (hdist : ∀ a b, dist a b = 1 - dotProduct a b)
    (hunit : ∀ name, ∀ sc ∈ db name, sumSq sc.embedding = 1)
    (hq : sumSq (enc query) = 1) :
    ∀ r ∈ search_similar_chunks enc dist db query company_filter max_results
        similarity_threshold date_filter,
      ∃ sc ∈ db (get_collection_name r.company),
        r.content = sc.document ∧
        (r.similarity_score : ℝ)
          = ((dotProduct (enc query) sc.embedding : ℚ) : ℝ)
            / (Real.sqrt ((sumSq (enc query) : ℚ) : ℝ)
                * Real.sqrt ((sumSq sc.embedding : ℚ) : ℝ)) := by
  intro r hr
  simp only [search_similar_chunks] at hr
  have hr2 := List.mem_of_mem_take hr
  have hr3 := (List.perm_insertionSort _ _).mem_iff.mp hr2
  obtain ⟨company, hcomp, hx⟩ := List.mem_flatMap.mp hr3
  obtain ⟨hco, hth, hmk, sc, hscmem, h1, h2, h3⟩ := searchCompany_mem hx
  refine ⟨sc, by rw [hco]; exact hscmem, h1, ?_⟩
  rw [h3, hdist, hq, hunit _ sc hscmem]
  push_cast
  simp [Real.sqrt_one]

/-- The single search result over `exDb`. -/
def exSearchResult : SearchResult :=
  { company := "AAPL", document_id := "aapl_doc", chunk_index := 0
    date := "2020-04-30", quarter := "Q2 2020", content := "Apple revenue grew."
    similarity_score := 1, metadata := exChunkMetadata }

/-- Witness for C2 at the concrete one-chunk store. -/
theorem similarity_score_is_cosine_witness :
    ∃ sc ∈ exDb (get_collection_name exSearchResult.company),
      exSearchResult.content = sc.document ∧
      (exSearchResult.similarity_score : ℝ)
        = ((dotProduct (exEnc "revenue") sc.embedding : ℚ) : ℝ)
          / (Real.sqrt ((sumSq (exEnc "revenue") : ℚ) : ℝ)
              * Real.sqrt ((sumSq sc.embedding : ℚ) : ℝ)) := by
  have hdist : ∀ a b, exDist a b = 1 - dotProduct a b := fun a b => rfl
  have hunit : ∀ name, ∀ sc ∈ exDb name, sumSq sc.embedding = 1 := by
    intro name sc hsc
    by_cases h : name = "transcripts_aapl"
    · simp [exDb, h] at hsc
      subst hsc
      norm_num [sumSq, dotProduct, exStoredChunk]
    · simp [exDb, h] at hsc
  have hq : sumSq (exEnc "revenue") = 1 := by norm_num [exEnc, sumSq, dotProduct]
  have hdb : exDb (get_collection_name "AAPL") = [exStoredChunk] := by decide
  have hdist0 : exDist [1] [1] = 0 := by simp [exDist, dotProduct]
  have hA : searchCompany exDist exDb [1] 5 0 none "AAPL" = [exSearchResult] := by
    simp [searchCompany, hdb, collectionQuery, mkWhere, truthyDateFilter,
          show matchesWhere (mkWhere "AAPL" none) exChunkMetadata = true from by decide,
          exStoredChunk, exChunkMetadata, exSearchResult, List.filter, List.insertionSort,
          List.orderedInsert, hdist0]
  have h2 : searchCompany exDist exDb [1] 5 0 none "AMD" = [] := searchCompany_empty (by decide)
  have h3 : searchCompany exDist exDb [1] 5 0 none "AMZN" = [] := searchCompany_empty (by decide)
  have h4 : searchCompany exDist exDb [1] 5 0 none "ASML" = [] := searchCompany_empty (by decide)
  have h5 : searchCompany exDist exDb [1] 5 0 none "CSCO" = [] := searchCompany_empty (by decide)
  have h6 : searchCompany exDist exDb [1] 5 0 none "GOOGL" = [] := searchCompany_empty (by decide)
  have h7 : searchCompany exDist exDb [1] 5 0 none "INTC" = [] := searchCompany_empty (by decide)
  have h8 : searchCompany exDist exDb [1] 5 0 none "MSFT" = [] := searchCompany_empty (by decide)
  have h9 : searchCompany exDist exDb [1] 5 0 none "MU" = [] := searchCompany_empty (by decide)
  have h10 : searchCompany exDist exDb [1] 5 0 none "NVDA" = [] := searchCompany_empty (by decide)
  have hsearch : search_similar_chunks exEnc exDist exDb "revenue" (some []) 5 0 none
      = [exSearchResult] := by
    simp [search_similar_chunks, pyOrList, companyNamesKeys, exEnc,
          hA, h2, h3, h4, h5, h6, h7, h8, h9, h10,
          List.insertionSort, List.orderedInsert]
  exact similarity_score_is_cosine exEnc exDist exDb "revenue" (some []) 5 0 none
    hdist hunit hq exSearchResult (by rw [hsearch]; exact List.mem_singleton.mpr rfl)

/-- The cache-probe results are the per-text cache loads. -/
lemma cacheScan_fst (md5hex : String → String) (cache_dir model_name : String) (fs : CacheFs) :
    ∀ (ts : List String) (i : ℕ),
      (cacheScan md5hex cache_dir model_name fs ts i).1
        = ts.map (fun t => load_embedding_from_cache md5hex cache_dir model_name fs t) := by
  intro ts
  induction ts with
  | nil => intro i; rfl
  | cons t rest ih =>
    intro i
    cases hl : load_embedding_from_cache md5hex cache_dir model_name fs t <;>
      simp [cacheScan, hl, ih]

/-- The texts to encode are exactly the cache misses, in order. -/
lemma cacheScan_tte (md5hex : String → String) (cache_dir model_name : String) (fs : CacheFs) :
    ∀ (ts : List String) (i : ℕ),
      (cacheScan md5hex cache_dir model_name fs ts i).2.1
        = ts.filter
            (fun t => load_embedding_from_cache md5hex cache_dir model_name fs t = none) := by
  intro ts
  induction ts with
  | nil => intro i; rfl
  | cons t rest ih =>
    intro i
    cases hl : load_embedding_from_cache md5hex cache_dir model_name fs t <;>
      simp [cacheScan, hl, ih, List.filter]

/-- Starting the probe one position later shifts every recorded index. -/
lemma cacheScan_idx (md5hex : String → String) (cache_dir model_name : String) (fs : CacheFs) :
    ∀ (ts : List String) (i : ℕ),
      (cacheScan md5hex cache_dir model_name fs ts (i + 1)).2.2
        = ((cacheScan md5hex cache_dir model_name fs ts i).2.2).map (· + 1) := by
  intro ts
  induction ts with
  | nil => intro i; rfl
  | cons t rest ih =>
    intro i
    cases hl : load_embedding_from_cache md5hex cache_dir model_name fs t <;>
      simp [cacheScan, hl, ih]

/-- Writing back at shifted indices leaves the head untouched. -/
lemma fillBack_cons_shift :
    ∀ (is : List ℕ) (es : List Emb) (x : Option Emb) (l : List (Option Emb)),
      fillBack (x :: l) (is.map (· + 1)) es = x :: fillBack l is es := by
  intro is
  induction is with
  | nil => intro es x l; cases es <;> rfl
  | cons i rest ih =>
    intro es x l
    cases es with
    | nil => rfl
    | cons e es' =>
      simp only [List.map_cons, fillBack, List.set_cons_succ]
      exact ih es' x (l.set i (some e))

/-- After the write-back loop every position holds the text's encoding,
provided cache hits agree with the encoder. -/
lemma encode_with_cache_fill (encodeOne : String → Emb) (md5hex : String → String)
    (cache_dir model_name : String) (fs : CacheFs) :
    ∀ texts : List String,
      (∀ t ∈ texts, ∀ e,
        load_embedding_from_cache md5hex cache_dir model_name fs t = some e →
          e = encodeOne t) →
      (fillBack (cacheScan md5hex cache_dir model_name fs texts 0).1
          (cacheScan md5hex cache_dir model_name fs texts 0).2.2
          ((cacheScan md5hex cache_dir model_name fs texts 0).2.1.map encodeOne)).map
        (fun o => o.getD []) = texts.map encodeOne := by
  intro texts
  induction texts with
  | nil => intro _; rfl
  | cons t rest ih =>
    intro hhit
    cases hl : load_embedding_from_cache md5hex cache_dir model_name fs t with
    | some c =>
      simp only [cacheScan, hl]
      rw [cacheScan_fst md5hex cache_dir model_name fs rest 1,
          ← cacheScan_fst md5hex cache_dir model_name fs rest 0,
          cacheScan_idx,
          show (cacheScan md5hex cache_dir model_name fs rest 1).2.1
              = (cacheScan md5hex cache_dir model_name fs rest 0).2.1 from by
            rw [cacheScan_tte, cacheScan_tte],
          fillBack_cons_shift]
      simp only [List.map_cons, List.map]
      rw [ih (fun t' ht' => hhit t' (List.mem_cons_of_mem _ ht'))]
      rw [hhit t (List.mem_cons_self _ _) c hl]
      rfl
    | none =>
      simp only [cacheScan, hl]
      rw [cacheScan_fst md5hex cache_dir model_name fs rest 1,
          ← cacheScan_fst md5hex cache_dir model_name fs rest 0,
          cacheScan_idx,
          show (cacheScan md5hex cache_dir model_name fs rest 1).2.1
              = (cacheScan md5hex cache_dir model_name fs rest 0).2.1 from by
            rw [cacheScan_tte, cacheScan_tte]]
      simp only [List.map_cons, fillBack, List.set_cons_zero]
      rw [fillBack_cons_shift]
      simp only [List.map_cons, Option.getD_some]
      rw [ih (fun t' ht' => hhit t' (List.mem_cons_of_mem _ ht'))]

/-- C8: when every cache hit returns the embedding `encode_texts` would
produce for that text, `encode_with_cache` returns the same embeddings in
the same positions as `encode_texts`, and the encoder is invoked exactly
on the texts that missed the cache. -/
theorem encode_with_cache_refines
    (encodeOne : String → Emb) (md5hex : String → String)
    (cache_dir model_name : String) (fs : CacheFs) (texts : List String)
    (hhit : ∀ t ∈ texts, ∀ e,
      load_embedding_from_cache md5hex cache_dir model_name fs t = some e →
        e = encodeOne t) :
    (encode_with_cache encodeOne md5hex cache_dir model_name fs texts true).1
        = encode_texts encodeOne texts ∧
    (encode_with_cache encodeOne md5hex cache_dir model_name fs texts true).2.1
        = texts.filter
            (fun t => load_embedding_from_cache md5hex cache_dir model_name fs t = none) := by
  constructor
  · simp only [encode_with_cache, Bool.not_true, Bool.false_eq_true, if_false, encode_texts]
    exact encode_with_cache_fill encodeOne md5hex cache_dir model_name fs texts hhit
  · simp only [encode_with_cache, Bool.not_true, Bool.false_eq_true, if_false]
    exact cacheScan_tte md5hex cache_dir model_name fs texts 0

/-- A sample encoder: the text length as a one-dimensional vector. -/
def exEncodeOne : String → Emb := fun s => [(s.length : ℚ)]

/-- A cache entry agreeing with `exEncodeOne` on `"hello"`. -/
def exCacheEntry : CacheEntry := { text := "hello", embedding := [5], model := "m" }

/-- A cache directory holding only the entry for `"hello"`. -/
def exCacheFs : CacheFs :=
  fun p => if p = "cache/hello.pkl" then some exCacheEntry else none

/-- Witness for C8: one hit, one miss. -/
theorem encode_with_cache_refines_witness :
    (encode_with_cache exEncodeOne id "cache" "m" exCacheFs ["hello", "x"] true).1
        = encode_texts exEncodeOne ["hello", "x"] ∧
    (encode_with_cache exEncodeOne id "cache" "m" exCacheFs ["hello", "x"] true).2.1
        = (["hello", "x"] : List String).filter
            (fun t => load_embedding_from_cache id "cache" "m" exCacheFs t = none) := by
  refine encode_with_cache_refines exEncodeOne id "cache" "m" exCacheFs ["hello", "x"] ?_
  intro t ht e he
  rcases List.mem_cons.mp ht with rfl | ht2
  · have h5 : load_embedding_from_cache id "cache" "m" exCacheFs "hello" = some [5] := by decide
    rw [h5] at he
    injection he with he
    rw [← he]
    decide
  · rcases List.mem_cons.mp ht2 with rfl | h0
    · have h0 : load_embedding_from_cache id "cache" "m" exCacheFs "x" = none := by decide
      rw [h0] at he
      cases he
    · cases h0

/-- A list `dropWhile` leaves untouched cannot start with a matching
character. -/
lemma head_not_of_dropWhile_eq_self {p : Char → Bool} {c : Char} {t : Str}
    (h : List.dropWhile p (c :: t) = c :: t) : p c = false := by
  by_contra hp
  rw [Bool.not_eq_false] at hp
  rw [List.dropWhile_cons_of_pos hp] at h
  have hlen := congrArg List.length h
  have hle := ((List.dropWhile_suffix (l := t) p).sublist).length_le
  simp at hlen
  omega

/-- A non-empty string with no leading or trailing whitespace (the shape
of anything `pyStrip` returns). -/
def goodStr (s : Str) : Prop :=
  s ≠ [] ∧ List.dropWhile Char.isWhitespace s = s ∧ List.rdropWhile Char.isWhitespace s = s

/-- `pyStrip` fixes strings that are already stripped. -/
lemma pyStrip_of_goodStr {s : Str} (h : goodStr s) : pyStrip s = s := by
  unfold pyStrip
  rw [h.2.1, h.2.2]

/-- A non-empty `pyStrip` result is stripped. -/
lemma goodStr_pyStrip {s : Str} (h : pyStrip s ≠ []) : goodStr (pyStrip s) := by
  unfold pyStrip at h ⊢
  refine ⟨h, ?_, List.rdropWhile_idempotent _ _⟩
  have hdu : List.dropWhile Char.isWhitespace (List.dropWhile Char.isWhitespace s)
      = List.dropWhile Char.isWhitespace s := List.dropWhile_idempotent _ _
  cases hr : List.rdropWhile Char.isWhitespace (List.dropWhile Char.isWhitespace s) with
  | nil => simp
  | cons c t =>
    have hpre : (c :: t) <+: List.dropWhile Char.isWhitespace s :=
      hr ▸ List.rdropWhile_prefix _ _
    obtain ⟨rest, hrest⟩ := hpre
    have hcu : List.dropWhile Char.isWhitespace s = c :: (t ++ rest) := by
      rw [← hrest]; simp
    have hc : Char.isWhitespace c = false := by
      apply head_not_of_dropWhile_eq_self (t := t ++ rest)
      rw [← hcu]
      exact hdu
    rw [List.dropWhile_cons]
    simp [hc]

/-- Joining two stripped strings with a space yields a stripped string. -/
lemma goodStr_append {a b : Str} (ha : goodStr a) (hb : goodStr b) :
    goodStr (a ++ ' ' :: b) := by
  obtain ⟨hane, hadrop, hardrop⟩ := ha
  obtain ⟨hbne, hbdrop, hbrdrop⟩ := hb
  refine ⟨by simp, ?_, ?_⟩
  · cases a with
    | nil => cases hane rfl
    | cons c t =>
      have hc := head_not_of_dropWhile_eq_self hadrop
      rw [List.cons_append, List.dropWhile_cons]
      simp [hc]
  · rw [List.rdropWhile_eq_self_iff]
    intro hl
    have hlast : (a ++ ' ' :: b).getLast hl = b.getLast hbne := by
      rw [List.getLast_append_of_ne_nil (by simp)]
      exact List.getLast_cons hbne
    rw [hlast]
    exact (List.rdropWhile_eq_self_iff.mp hbrdrop) hbne

/-- Joining sentences with single spaces, as the packing loop builds its
current chunk. -/
def joinWithSpace : List Str → Str
  | [] => []
  | [s] => s
  | s :: rest => s ++ ' ' :: joinWithSpace rest

/-- Appending one more sentence to a non-empty group adds a space and the
sentence. -/
lemma joinWithSpace_concat {g : List Str} (hg : g ≠ []) (t : Str) :
    joinWithSpace (g ++ [t]) = joinWithSpace g ++ ' ' :: t := by
  induction g with
  | nil => cases hg rfl
  | cons s rest ih =>
    cases rest with
    | nil => rfl
    | cons s2 r2 =>
      rw [List.cons_append]
      show s ++ ' ' :: joinWithSpace (s2 :: r2 ++ [t])
          = (s ++ ' ' :: joinWithSpace (s2 :: r2)) ++ ' ' :: t
      rw [ih (by simp)]
      simp

/-- A space-join of stripped non-empty sentences is stripped and
non-empty. -/
lemma goodStr_joinWithSpace {g : List Str} (hg : g ≠ []) (h : ∀ s ∈ g, goodStr s) :
    goodStr (joinWithSpace g) := by
  induction g with
  | nil => cases hg rfl
  | cons s rest ih =>
    cases rest with
    | nil => exact h s (List.mem_cons_self _ _)
    | cons s2 r2 =>
      simp only [joinWithSpace]
      exact goodStr_append (h s (List.mem_cons_self _ _))
        (ih (by simp) (fun x hx => h x (List.mem_cons_of_mem _ hx)))

/-- The packing loop only ever appends to its chunk accumulator. -/
lemma chunkLoop_append (m : ℕ) :
    ∀ (ss : List Str) (chunks : List Str) (cur : Str),
      chunkLoop m ss chunks cur
        = (chunks ++ (chunkLoop m ss [] cur).1, (chunkLoop m ss [] cur).2) := by
  intro ss
  induction ss with
  | nil => intro chunks cur; simp [chunkLoop]
  | cons sentence rest ih =>
    intro chunks cur
    simp only [chunkLoop]
    by_cases h1 : pyStrip sentence = []
    · rw [if_pos h1, if_pos h1]
      exact ih chunks cur
    · rw [if_neg h1, if_neg h1]
      by_cases h2 : cur.length + (pyStrip sentence).length > m ∧ cur ≠ []
      · rw [if_pos h2, if_pos h2]
        rw [ih (chunks ++ [pyStrip cur]) (pyStrip sentence),
            ih ([] ++ [pyStrip cur]) (pyStrip sentence)]
        simp
      · rw [if_neg h2, if_neg h2]
        by_cases h3 : cur = []
        · rw [if_pos h3, if_pos h3]
          exact ih chunks (pyStrip sentence)
        · rw [if_neg h3, if_neg h3]
          exact ih chunks (cur ++ ' ' :: pyStrip sentence)

/-- The packing loop followed by the final flush of `_split_into_chunks`
(lines 369-371). -/
def chunkFinish (m : ℕ) (ss : List Str) (cur : Str) : List Str :=
  let r := chunkLoop m ss [] cur
  if pyStrip r.2 ≠ [] then r.1 ++ [pyStrip r.2] else r.1

/-- One step of the packing loop, with the final flush carried along. -/
lemma chunkFinish_cons (m : ℕ) (sentence : Str) (rest : List Str) (cur : Str) :
    chunkFinish m (sentence :: rest) cur =
      if pyStrip sentence = [] then chunkFinish m rest cur
      else if cur.length + (pyStrip sentence).length > m ∧ cur ≠ [] then
        pyStrip cur :: chunkFinish m rest (pyStrip sentence)
      else if cur = [] then chunkFinish m rest (pyStrip sentence)
      else chunkFinish m rest (cur ++ ' ' :: pyStrip sentence) := by
  simp only [chunkFinish, chunkLoop]
  by_cases h1 : pyStrip sentence = []
  · rw [if_pos h1, if_pos h1]
  · rw [if_neg h1, if_neg h1]
    by_cases h2 : cur.length + (pyStrip sentence).length > m ∧ cur ≠ []
    · rw [if_pos h2, if_pos h2]
      rw [chunkLoop_append m rest ([] ++ [pyStrip cur]) (pyStrip sentence)]
      by_cases h4 : pyStrip (chunkLoop m rest [] (pyStrip sentence)).2 ≠ []
      · rw [if_pos h4, if_pos h4]
        simp
      · rw [if_neg h4, if_neg h4]
        simp
    · rw [if_neg h2, if_neg h2]
      by_cases h3 : cur = []
      · rw [if_pos h3, if_pos h3]
      · rw [if_neg h3, if_neg h3]

/-- Main invariant of the packing loop: the produced chunks are the
space-joins of a partition of the remaining (stripped, non-empty)
sentences prefixed by the current group, and each multi-sentence join is
at most `m + 1` characters. -/
lemma chunkFinish_spec (m : ℕ) :
    ∀ (ss : List Str) (cur : Str) (grp : List Str),
      ((cur = [] ∧ grp = []) ∨
       (grp ≠ [] ∧ (∀ s ∈ grp, goodStr s) ∧ cur = joinWithSpace grp ∧
         (grp.length = 1 ∨ cur.length ≤ m + 1))) →
      ∃ groups : List (List Str),
        (∀ g ∈ groups, g ≠ [] ∧ (∀ s ∈ g, goodStr s) ∧
          (g.length = 1 ∨ (joinWithSpace g).length ≤ m + 1)) ∧
        groups.flatten = grp ++ (ss.map pyStrip).filter (fun s => s ≠ []) ∧
        chunkFinish m ss cur = groups.map joinWithSpace := by
  intro ss
  induction ss with
  | nil =>
    intro cur grp hinv
    rcases hinv with ⟨hcur, hgrp⟩ | ⟨hne, hgood, hjoin, hlen⟩
    · subst hcur
      subst hgrp
      exact ⟨[], by simp, by simp, by simp [chunkFinish, chunkLoop, pyStrip]⟩
    · have hg : goodStr (joinWithSpace grp) := goodStr_joinWithSpace hne hgood
      refine ⟨[grp], ?_, by simp, ?_⟩
      · intro g hgm
        rw [List.mem_singleton] at hgm
        subst hgm
        refine ⟨hne, hgood, ?_⟩
        rcases hlen with hl1 | hl2
        · exact Or.inl hl1
        · exact Or.inr (by rw [← hjoin]; exact hl2)
      · have hcur : pyStrip (joinWithSpace grp) = joinWithSpace grp := pyStrip_of_goodStr hg
        simp [chunkFinish, chunkLoop, hjoin, hcur, hg.1]
  | cons sentence rest ih =>
    intro cur grp hinv
    rw [chunkFinish_cons]
    by_cases h1 : pyStrip sentence = []
    · rw [if_pos h1]
      obtain ⟨groups, hgood, hjoin, heq⟩ := ih cur grp hinv
      exact ⟨groups, hgood, by simpa [h1] using hjoin, heq⟩
    · rw [if_neg h1]
      have hgt : goodStr (pyStrip sentence) := goodStr_pyStrip h1
      have hsingle : ((pyStrip sentence = [] ∧ ([pyStrip sentence] : List Str) = []) ∨
          (([pyStrip sentence] : List Str) ≠ [] ∧
            (∀ s ∈ ([pyStrip sentence] : List Str), goodStr s) ∧
            pyStrip sentence = joinWithSpace [pyStrip sentence] ∧
            (([pyStrip sentence] : List Str).length = 1 ∨
              (pyStrip sentence).length ≤ m + 1))) :=
        Or.inr ⟨by simp, by simpa using hgt, rfl, Or.inl rfl⟩
      by_cases h2 : cur.length + (pyStrip sentence).length > m ∧ cur ≠ []
      · rw [if_pos h2]
        rcases hinv with ⟨hcur, _⟩ | ⟨hne, hgood, hjoin, hlen⟩
        · exact absurd hcur h2.2
        obtain ⟨groups, hg, hj, he⟩ := ih (pyStrip sentence) [pyStrip sentence] hsingle
        refine ⟨grp :: groups, ?_, ?_, ?_⟩
        · intro g hgm
          rcases List.mem_cons.mp hgm with rfl | hgm2
          · refine ⟨hne, hgood, ?_⟩
            rcases hlen with hl1 | hl2
            · exact Or.inl hl1
            · exact Or.inr (by rw [← hjoin]; exact hl2)
          · exact hg g hgm2
        · rw [List.flatten_cons, hj]
          simp [h1]
        · have hcur : pyStrip cur = cur := by
            rw [hjoin]; exact pyStrip_of_goodStr (goodStr_joinWithSpace hne hgood)
          rw [hcur, he]
          simp [hjoin]
      · rw [if_neg h2]
        by_cases h3 : cur = []
        · rw [if_pos h3]
          rcases hinv with ⟨_, hgrp⟩ | ⟨hne, hgood, hjoin, _⟩
          · subst hgrp
            obtain ⟨groups, hg, hj, he⟩ := ih (pyStrip sentence) [pyStrip sentence] hsingle
            refine ⟨groups, hg, ?_, he⟩
            rw [hj]
            simp [h1]
          · exfalso
            have := (goodStr_joinWithSpace hne hgood).1
            rw [← hjoin] at this
            exact this h3
        · rw [if_neg h3]
          rcases hinv with ⟨hcur, _⟩ | ⟨hne, hgood, hjoin, hlen⟩
          · exact absurd hcur h3
          have hlen' : (cur ++ ' ' :: pyStrip sentence).length ≤ m + 1 := by
            have hx : ¬ (cur.length + (pyStrip sentence).length > m) := fun hx => h2 ⟨hx, h3⟩
            simp only [List.length_append, List.length_cons]
            omega
          have hjoin' : cur ++ ' ' :: pyStrip sentence = joinWithSpace (grp ++ [pyStrip sentence]) := by
            rw [joinWithSpace_concat hne, ← hjoin]
          have hall : ∀ s ∈ grp ++ [pyStrip sentence], goodStr s := by
            intro s hs
            rcases List.mem_append.mp hs with hs1 | hs2
            · exact hgood s hs1
            · rw [List.mem_singleton] at hs2
              subst hs2
              exact hgt
          obtain ⟨groups, hg, hj, he⟩ := ih (cur ++ ' ' :: pyStrip sentence)
            (grp ++ [pyStrip sentence]) (Or.inr ⟨by simp, hall, hjoin', Or.inr hlen'⟩)
          refine ⟨groups, hg, ?_, he⟩
          rw [hj]
          simp [h1]

/-- C5 (amended): the chunker splits at runs of sentence punctuation,
drops empty sentences, packs consecutive sentences greedily in original
order (the chunks are the space-joins of a partition of the non-empty
stripped sentences), and returns only non-empty whitespace-trimmed
chunks; a chunk packing two or more sentences is at most
`max_chunk_size + 1` characters long, while a single over-long sentence
becomes its own chunk of unbounded length. -/
theorem split_into_chunks_spec :
    ∀ (text : Str) (max_chunk_size : ℕ),
    ∃ groups : List (List Str),
      (∀ g ∈ groups, g ≠ [] ∧ (∀ s ∈ g, s ≠ [] ∧ pyStrip s = s) ∧
        (g.length = 1 ∨ (joinWithSpace g).length ≤ max_chunk_size + 1)) ∧
      groups.flatten = ((splitSentences text).map pyStrip).filter (fun s => s ≠ []) ∧
      _split_into_chunks text max_chunk_size = groups.map joinWithSpace ∧
      (∀ c ∈ _split_into_chunks text max_chunk_size, c ≠ [] ∧ pyStrip c = c) := by
  intro text m
  obtain ⟨groups, hg, hj, he⟩ :=
    chunkFinish_spec m (splitSentences text) [] [] (Or.inl ⟨rfl, rfl⟩)
  have hsplit : _split_into_chunks text m = chunkFinish m (splitSentences text) [] := rfl
  refine ⟨groups, ?_, by simpa using hj, by rw [hsplit, he], ?_⟩
  · intro g hgm
    obtain ⟨h1, h2, h3⟩ := hg g hgm
    exact ⟨h1, fun s hs => ⟨(h2 s hs).1, pyStrip_of_goodStr (h2 s hs)⟩, h3⟩
  · intro c hc
    rw [hsplit, he] at hc
    obtain ⟨g, hgm, rfl⟩ := List.mem_map.mp hc
    obtain ⟨h1, h2, h3⟩ := hg g hgm
    have hgj := goodStr_joinWithSpace h1 h2
    exact ⟨hgj.1, pyStrip_of_goodStr hgj⟩

/-- A text without sentence punctuation is one single sentence. -/
lemma splitSentences_no_punct :
    ∀ {l : Str}, (∀ c ∈ l, isSentencePunct c = false) → splitSentences l = [l] := by
  intro l
  induction l with
  | nil => intro _; rfl
  | cons c cs ih =>
    intro h
    have hc : isSentencePunct c = false := h c (List.mem_cons_self _ _)
    have ih' := ih (fun x hx => h x (List.mem_cons_of_mem _ hx))
    simp [splitSentences, hc, ih']

/-- A text without whitespace strips to itself. -/
lemma pyStrip_no_ws {l : Str} (h : ∀ c ∈ l, Char.isWhitespace c = false) :
    pyStrip l = l := by
  unfold pyStrip
  have h1 : List.dropWhile Char.isWhitespace l = l := by
    cases l with
    | nil => rfl
    | cons c t =>
      rw [List.dropWhile_cons]
      simp [h c (List.mem_cons_self _ _)]
  rw [h1]
  rw [List.rdropWhile_eq_self_iff]
  intro hl
  have := h _ (List.getLast_mem hl)
  simp [this]

/-- A punctuation-free, whitespace-free text becomes one chunk, whatever
its length. -/
lemma split_into_chunks_single {l : Str} (hnp : ∀ c ∈ l, isSentencePunct c = false)
    (hnw : ∀ c ∈ l, Char.isWhitespace c = false) (hne : l ≠ []) (m : ℕ) :
    _split_into_chunks l m = [l] := by
  have hs := splitSentences_no_punct hnp
  have hstrip := pyStrip_no_ws hnw
  simp [_split_into_chunks, hs, chunkLoop, hstrip, hne]

/-- C5 counterexample: 513 letters with no punctuation come back as a
single chunk of 513 characters, exceeding the default `max_chunk_size`
of 512. -/
theorem split_into_chunks_cex :
    _split_into_chunks (List.replicate 513 'a') 512 = [List.replicate 513 'a'] ∧
    ¬ ((List.replicate 513 'a') : Str).length ≤ 512 := by
  have hlen : ((List.replicate 513 'a') : Str).length = 513 := List.length_replicate _ _
  have hne : ((List.replicate 513 'a') : Str) ≠ [] := by
    intro h
    rw [h] at hlen
    exact absurd hlen (by simp)
  constructor
  · exact split_into_chunks_single
      (fun c hc => by rw [List.eq_of_mem_replicate hc]; rfl)
      (fun c hc => by rw [List.eq_of_mem_replicate hc]; rfl) hne 512
  · rw [hlen]
    omega
